import Mathlib

/-!
Verification of the Vietnamese Sign Language converter repository.

The repository contains two parallel converter implementations:
* a legacy one in `sign_language_converter.py` at the repository root
  (namespace `Legacy` below), and
* a packaged one in `src/core/sign_language_converter.py`
  (namespace `Core` below).

Python strings are modelled as Lean `String`; Python's `str.lower`,
`str.upper`, `str.strip` and single-character `str.replace` are modelled
character-wise (`pyLower`, `pyUpper`, `pyStrip`, `pyReplaceChar`).
Python dictionaries are modelled as association lists with
insert-or-update-in-place semantics (`dictInsert`), which preserves both
the last-write-wins behaviour and the notion of emptiness / entry count.
The dictionary file is modelled as `Option (List String)`: `none` stands
for an unavailable source (missing file or read error), `some lines` for
a readable file with the given physical lines.
-/

namespace VSL

/-- Model of Python `str.lower()` (character-wise; exact on ASCII). -/
def pyLower (s : String) : String := ⟨s.data.map Char.toLower⟩

/-- Model of Python `str.upper()` (character-wise; exact on ASCII). -/
def pyUpper (s : String) : String := ⟨s.data.map Char.toUpper⟩

/-- Model of Python `str.replace(a, b)` for single characters `a`, `b`. -/
def pyReplaceChar (s : String) (a b : Char) : String :=
  ⟨s.data.map fun c => if c = a then b else c⟩

/-- Model of Python `str.strip()`: drop leading and trailing whitespace. -/
def pyStrip (s : String) : String :=
  ⟨((s.data.dropWhile Char.isWhitespace).reverse.dropWhile Char.isWhitespace).reverse⟩

/-- The normalisation both converters apply before a dictionary lookup:
`word.lower().replace(" ", "_")`. -/
def normalizeWord (w : String) : String := pyReplaceChar (pyLower w) ' ' '_'

/-- Model of Python `s.startswith(c)` for a single character `c`. -/
def pyStartsWithChar (s : String) (c : Char) : Bool := s.data.head? = some c

/-- A POS-tagged token: `(surface word, tag)`. -/
abbrev Token := String × String

/-- Python `dict` as an association list (insertion order, unique keys). -/
abbrev PyDict := List (String × String)

/-- Python `d[k] = v`: update the value in place if the key exists,
otherwise append the new pair at the end. -/
def dictInsert : PyDict → String → String → PyDict
  | [], k, v => [(k, v)]
  | (k', v') :: rest, k, v =>
      if k' = k then (k', v) :: rest else (k', v') :: dictInsert rest k v

/-- Python `d[k]` / `k in d`: first (hence unique) binding of `k`. -/
def dictLookup (d : PyDict) (k : String) : Option String :=
  match d with
  | [] => none
  | (k', v) :: rest => if k' = k then some v else dictLookup rest k

/-- Python `line.split(c, 1)`: the part before the first `c` and the part
after it (the token is assumed to occur, as guarded in the source). -/
def splitFirst (s : String) (c : Char) : String × String :=
  (⟨s.data.takeWhile (· ≠ c)⟩, ⟨(s.data.dropWhile (· ≠ c)).drop 1⟩)

namespace Core

/-- The ten buckets of `_categorize_words` in `src/core/sign_language_converter.py`. -/
structure Categories where
  subjects : List Token
  objects : List Token
  verbs : List Token
  adjectives : List Token
  adverbs : List Token
  numbers : List Token
  pronouns : List Token
  prepositions : List Token
  time_expressions : List Token
  others : List Token
deriving Repr, DecidableEq

/-- The initial empty bucket set. -/
def initCategories : Categories :=
  ⟨[], [], [], [], [], [], [], [], [], []⟩

/-- The fixed time-word set of `_is_time_expression`. -/
def time_words : List String :=
  ["hôm nay", "ngày mai", "hôm qua", "tuần này", "tháng này",
   "sáng", "chiều", "tối", "đêm", "bây giờ", "lúc này"]

/-- Model of `_is_time_expression`. -/
def is_time_expression (word : String) : Bool := time_words.contains word

/-- One iteration of the classification loop of `_categorize_words`. -/
def categorizeStep (cats : Categories) (t : Token) : Categories :=
  let word := t.1
  let pos := t.2
  let word_lower := pyLower word
  if pos = "PRON" then
    { cats with pronouns := cats.pronouns ++ [t] }
  else if pos = "NOUN" ∨ pos = "PROPN" then
    if cats.subjects.length = 0 ∧ cats.verbs.length = 0 then
      { cats with subjects := cats.subjects ++ [t] }
    else
      { cats with objects := cats.objects ++ [t] }
  else if pos = "VERB" then
    { cats with verbs := cats.verbs ++ [t] }
  else if pos = "ADJ" then
    { cats with adjectives := cats.adjectives ++ [t] }
  else if pos = "ADV" then
    { cats with adverbs := cats.adverbs ++ [t] }
  else if pos = "NUM" then
    { cats with numbers := cats.numbers ++ [t] }
  else if pos = "ADP" then
    { cats with prepositions := cats.prepositions ++ [t] }
  else if is_time_expression word_lower then
    { cats with time_expressions := cats.time_expressions ++ [t] }
  else
    { cats with others := cats.others ++ [t] }

/-- Model of `_categorize_words`: a single left-to-right pass. -/
def categorize_words (ts : List Token) : Categories :=
  ts.foldl categorizeStep initCategories

/-- Model of `_reorder_for_sign_language`: fixed bucket concatenation. -/
def reorder_for_sign_language (c : Categories) : List Token :=
  c.time_expressions ++ c.pronouns ++ c.subjects ++ c.adjectives ++
  c.numbers ++ c.objects ++ c.verbs ++ c.adverbs ++ c.prepositions ++ c.others

/-- One record of the per-word report built by `_create_word_details`. -/
structure WordDetail where
  index : Nat
  original_word : String
  pos_tag : String
  has_dictionary_definition : Bool
  dictionary_action : String
  in_dictionary : Bool
deriving Repr, DecidableEq

/-- Model of `_create_word_details`: per-token dictionary lookup report. -/
def create_word_details (basic_signs : PyDict) (ts : List Token) : List WordDetail :=
  ts.enum.map fun p =>
    let i := p.1
    let word := p.2.1
    let pos := p.2.2
    let word_lower := pyLower word
    let normalized_word := pyReplaceChar word_lower ' ' '_'
    match dictLookup basic_signs normalized_word with
    | some m =>
        { index := i + 1, original_word := word, pos_tag := pos,
          has_dictionary_definition := true, dictionary_action := m,
          in_dictionary := true }
    | none =>
        { index := i + 1, original_word := word, pos_tag := pos,
          has_dictionary_definition := false,
          dictionary_action := pyUpper word ++ "[" ++ pos ++ "]",
          in_dictionary := false }

/-- The `structure_changes` sub-record of `_create_analysis`. -/
structure StructureChanges where
  subjects : Nat
  verbs : Nat
  objects : Nat
  adjectives : Nat
  time_expressions : Nat
  others : Nat
deriving Repr, DecidableEq

/-- The fixed `reorder_strategy` sub-record of `_create_analysis`. -/
structure ReorderStrategyInfo where
  original_order : String
  sign_language_order : String
  time_placement : String
  adjective_placement : String
deriving Repr, DecidableEq

/-- The analysis record returned by `_create_analysis`. -/
structure Analysis where
  word_count : Nat
  reordered_count : Nat
  structure_changes : StructureChanges
  reorder_strategy : ReorderStrategyInfo
  conversion_applied : Bool
deriving Repr, DecidableEq

/-- Model of `_create_analysis`. -/
def create_analysis (original_words : List Token) (categorized : Categories)
    (final_sequence : List String) : Analysis :=
  { word_count := original_words.length,
    reordered_count := final_sequence.length,
    structure_changes :=
      { subjects := categorized.subjects.length,
        verbs := categorized.verbs.length,
        objects := categorized.objects.length,
        adjectives := categorized.adjectives.length,
        time_expressions := categorized.time_expressions.length,
        others := categorized.others.length },
    reorder_strategy :=
      { original_order := "SVO (Subject-Verb-Object)",
        sign_language_order := "SOV (Subject-Object-Verb)",
        time_placement := "Beginning of sentence",
        adjective_placement := "After subject" },
    conversion_applied := true }

/-- The result dictionary returned by `convert_to_sign_language` on success. -/
structure ConversionResult where
  original_sentence : String
  sign_language_sequence : List String
  structure_analysis : Analysis
  pos_analysis : Categories
  word_details : List WordDetail
  reorder_strategy : String
deriving Repr, DecidableEq

/-- Either a structured error dictionary or a `ConversionResult`. -/
inductive ConvertOutput where
  | error : String → ConvertOutput
  | ok : ConversionResult → ConvertOutput
deriving Repr, DecidableEq

/-- Model of `convert_to_sign_language`.  The instance attributes
`is_initialized` and `basic_signs` are passed explicitly. -/
def convert_to_sign_language (is_initialized : Bool) (basic_signs : PyDict)
    (pos_tagged_words : List Token) : ConvertOutput :=
  if ¬ is_initialized then
    .error "Sign Language Converter is not initialized"
  else
    let categorized_words := categorize_words pos_tagged_words
    let reordered_structure := reorder_for_sign_language categorized_words
    let final_sequence := reordered_structure.map Prod.fst
    let word_details := create_word_details basic_signs pos_tagged_words
    let analysis := create_analysis pos_tagged_words categorized_words final_sequence
    .ok
      { original_sentence := String.intercalate " " (pos_tagged_words.map Prod.fst),
        sign_language_sequence := final_sequence,
        structure_analysis := analysis,
        pos_analysis := categorized_words,
        word_details := word_details,
        reorder_strategy := "Vietnamese SVO → Sign Language SOV" }

/-- The gloss sequence of a conversion output (empty on error). -/
def glossSeq : ConvertOutput → List String
  | .error _ => []
  | .ok r => r.sign_language_sequence

/-- The built-in seed mapping of `_get_fallback_dictionary`. -/
def fallback_dictionary : PyDict :=
  [("tôi", "TÔI"), ("bạn", "BẠN"), ("họ", "HỌ"),
   ("chúng tôi", "CHÚNG-TÔI"), ("chúng ta", "CHÚNG-TA"),
   ("đi", "ĐI"), ("ăn", "ĂN"), ("học", "HỌC"), ("làm", "LÀM"), ("nói", "NÓI"),
   ("một", "1"), ("hai", "2"), ("ba", "3"), ("bốn", "4"), ("năm", "5"),
   ("không", "KHÔNG"), ("có", "CÓ"), ("rất", "RẤT"), ("và", "VÀ")]

/-- One iteration of the line loop in the core `_load_dictionary_from_file`. -/
def loadLineStep (d : PyDict) (rawLine : String) : PyDict :=
  let line := pyStrip rawLine
  if line = "" ∨ pyStartsWithChar line '#' then d
  else if line.data.contains '=' then
    let parts := splitFirst line '='
    let vietnamese_word := pyLower (pyStrip parts.1)
    let sign_word := pyUpper (pyStrip parts.2)
    if vietnamese_word ≠ "" ∧ sign_word ≠ "" then
      dictInsert d vietnamese_word sign_word
    else d
  else d

/-- Model of the core `_load_dictionary_from_file`.  `none` models a missing
file or a read error (both of which return the fallback dictionary);
`some lines` models a readable file with the given lines. -/
def load_dictionary_from_file (source : Option (List String)) : PyDict :=
  match source with
  | none => fallback_dictionary
  | some lines => lines.foldl loadLineStep []

end Core

namespace Legacy

/-- The nine buckets of `_categorize_words` in the root-level
`sign_language_converter.py` (no `time_expressions` bucket). -/
structure Categories where
  subjects : List Token
  objects : List Token
  verbs : List Token
  adjectives : List Token
  adverbs : List Token
  numbers : List Token
  pronouns : List Token
  prepositions : List Token
  others : List Token
deriving Repr, DecidableEq

/-- The initial empty bucket set. -/
def initCategories : Categories :=
  ⟨[], [], [], [], [], [], [], [], []⟩

/-- One iteration of the classification loop of the legacy
`_categorize_words` (the computed `word_lower` is unused in the source). -/
def categorizeStep (cats : Categories) (t : Token) : Categories :=
  let pos := t.2
  if pos = "PRON" then
    { cats with pronouns := cats.pronouns ++ [t] }
  else if pos = "NOUN" ∨ pos = "PROPN" then
    if cats.subjects.length = 0 ∧ cats.verbs.length = 0 then
      { cats with subjects := cats.subjects ++ [t] }
    else
      { cats with objects := cats.objects ++ [t] }
  else if pos = "VERB" then
    { cats with verbs := cats.verbs ++ [t] }
  else if pos = "ADJ" then
    { cats with adjectives := cats.adjectives ++ [t] }
  else if pos = "ADV" then
    { cats with adverbs := cats.adverbs ++ [t] }
  else if pos = "NUM" then
    { cats with numbers := cats.numbers ++ [t] }
  else if pos = "ADP" then
    { cats with prepositions := cats.prepositions ++ [t] }
  else
    { cats with others := cats.others ++ [t] }

/-- Model of the legacy `_categorize_words`. -/
def categorize_words (ts : List Token) : Categories :=
  ts.foldl categorizeStep initCategories

/-- Model of the legacy `_reorder_for_sign_language`. -/
def reorder_for_sign_language (c : Categories) : List Token :=
  c.pronouns ++ c.subjects ++ c.adjectives ++ c.numbers ++ c.objects ++
  c.verbs ++ c.adverbs ++ c.prepositions ++ c.others

/-- Model of `_convert_vocabulary`: dictionary substitution with
uppercase fallback. -/
def convert_vocabulary (sign_dictionary : PyDict) (word_sequence : List Token) :
    List String :=
  word_sequence.map fun t =>
    let word_lower := pyLower t.1
    let normalized_word := pyReplaceChar word_lower ' ' '_'
    match dictLookup sign_dictionary normalized_word with
    | some v => v
    | none => pyUpper t.1

/-- Model of Python `str.isupper()` over ASCII: at least one cased character
and no lowercase character. -/
def pyIsUpper (s : String) : Bool :=
  (s.data.any fun c => c.isUpper || c.isLower) && (s.data.all fun c => !c.isLower)

/-- The `structure_changes` sub-record of the legacy `_create_analysis`. -/
structure StructureChanges where
  subjects : Nat
  verbs : Nat
  objects : Nat
  adjectives : Nat
  others : Nat
deriving Repr, DecidableEq

/-- The analysis record of the legacy `_create_analysis`. -/
structure Analysis where
  word_count : Nat
  sign_count : Nat
  structure_changes : StructureChanges
  reorder_applied : Bool
  vocabulary_mapped : Nat
deriving Repr, DecidableEq

/-- Model of the legacy `_create_analysis`. -/
def create_analysis (sign_dictionary : PyDict) (original_words : List Token)
    (categorized : Categories) (sign_sequence : List String) : Analysis :=
  { word_count := original_words.length,
    sign_count := sign_sequence.length,
    structure_changes :=
      { subjects := categorized.subjects.length,
        verbs := categorized.verbs.length,
        objects := categorized.objects.length,
        adjectives := categorized.adjectives.length,
        others := categorized.others.length },
    reorder_applied := true,
    vocabulary_mapped :=
      (sign_sequence.filter fun s =>
        !pyIsUpper s || (sign_dictionary.map Prod.snd).contains s).length }

/-- The result dictionary of the legacy `convert_to_sign_language`. -/
structure ConversionResult where
  original_sentence : String
  sign_language_sequence : List String
  structure_analysis : Analysis
  pos_analysis : Categories
deriving Repr, DecidableEq

/-- Either a structured error dictionary or a legacy `ConversionResult`. -/
inductive ConvertOutput where
  | error : String → ConvertOutput
  | ok : ConversionResult → ConvertOutput
deriving Repr, DecidableEq

/-- Model of the legacy `convert_to_sign_language`. -/
def convert_to_sign_language (is_initialized : Bool) (sign_dictionary : PyDict)
    (pos_tagged_words : List Token) : ConvertOutput :=
  if ¬ is_initialized then
    .error "Sign Language Converter is not initialized"
  else
    let categorized_words := categorize_words pos_tagged_words
    let reordered_structure := reorder_for_sign_language categorized_words
    let sign_sequence := convert_vocabulary sign_dictionary reordered_structure
    let analysis :=
      create_analysis sign_dictionary pos_tagged_words categorized_words sign_sequence
    .ok
      { original_sentence := String.intercalate " " (pos_tagged_words.map Prod.fst),
        sign_language_sequence := sign_sequence,
        structure_analysis := analysis,
        pos_analysis := categorized_words }

/-- The gloss sequence of a legacy conversion output (empty on error). -/
def glossSeq : ConvertOutput → List String
  | .error _ => []
  | .ok r => r.sign_language_sequence

/-- One iteration of the line loop in the legacy
`_load_dictionary_from_file`: keys and values are only stripped, never
lowercased or uppercased. -/
def loadLineStep (d : PyDict) (rawLine : String) : PyDict :=
  let line := pyStrip rawLine
  if line = "" ∨ pyStartsWithChar line '#' then d
  else if line.data.contains '=' then
    let parts := splitFirst line '='
    let vietnamese_word := pyStrip parts.1
    let sign_word := pyStrip parts.2
    if vietnamese_word ≠ "" ∧ sign_word ≠ "" then
      dictInsert d vietnamese_word sign_word
    else d
  else d

/-- Model of the legacy `_load_dictionary_from_file`: on a missing file or a
read error the partially built (here: empty) dictionary is returned — there
is no fallback seed mapping in the legacy loader. -/
def load_dictionary_from_file (source : Option (List String)) : PyDict :=
  match source with
  | none => []
  | some lines => lines.foldl loadLineStep []

/-- Model of `reload_dictionary`: the store is replaced wholesale by a fresh
load; the previous mapping does not influence the result. -/
def reload_dictionary (_old : PyDict) (source : Option (List String)) : PyDict :=
  load_dictionary_from_file source

/-- Total number of tokens across the nine legacy buckets. -/
def totalSize (c : Categories) : Nat :=
  c.subjects.length + c.objects.length + c.verbs.length + c.adjectives.length +
  c.adverbs.length + c.numbers.length + c.pronouns.length +
  c.prepositions.length + c.others.length

end Legacy

/-- The names of the ten buckets of the core classifier. -/
inductive BucketName where
  | time | pronoun | subject | object | verb
  | adjective | adverb | number | preposition | other
deriving Repr, DecidableEq

namespace Core

/-- Append a token to the named bucket. -/
def updateBucket (cats : Categories) (b : BucketName) (t : Token) : Categories :=
  match b with
  | .time => { cats with time_expressions := cats.time_expressions ++ [t] }
  | .pronoun => { cats with pronouns := cats.pronouns ++ [t] }
  | .subject => { cats with subjects := cats.subjects ++ [t] }
  | .object => { cats with objects := cats.objects ++ [t] }
  | .verb => { cats with verbs := cats.verbs ++ [t] }
  | .adjective => { cats with adjectives := cats.adjectives ++ [t] }
  | .adverb => { cats with adverbs := cats.adverbs ++ [t] }
  | .number => { cats with numbers := cats.numbers ++ [t] }
  | .preposition => { cats with prepositions := cats.prepositions ++ [t] }
  | .other => { cats with others := cats.others ++ [t] }

/-- The bucket the classification loop assigns a token to, as a function of
the current bucket state (mirrors the `if`/`elif` chain of
`_categorize_words`). -/
def assignedBucket (cats : Categories) (t : Token) : BucketName :=
  let pos := t.2
  let word_lower := pyLower t.1
  if pos = "PRON" then .pronoun
  else if pos = "NOUN" ∨ pos = "PROPN" then
    if cats.subjects.length = 0 ∧ cats.verbs.length = 0 then .subject else .object
  else if pos = "VERB" then .verb
  else if pos = "ADJ" then .adjective
  else if pos = "ADV" then .adverb
  else if pos = "NUM" then .number
  else if pos = "ADP" then .preposition
  else if is_time_expression word_lower then .time
  else .other

/-- The bucket the classification pass assigns to the token at index `i`
of the input sequence (`none` when `i` is out of range). -/
def bucketAt (ts : List Token) (i : Nat) : Option BucketName :=
  match ts[i]? with
  | some t => some (assignedBucket (categorize_words (ts.take i)) t)
  | none => none

/-- Total number of tokens across the ten core buckets. -/
def totalSize (c : Categories) : Nat :=
  c.subjects.length + c.objects.length + c.verbs.length + c.adjectives.length +
  c.adverbs.length + c.numbers.length + c.pronouns.length +
  c.prepositions.length + c.time_expressions.length + c.others.length

/-- The `structure_analysis` field of a conversion output, when present. -/
def analysisOf : ConvertOutput → Option Analysis
  | .error _ => none
  | .ok r => some r.structure_analysis

end Core

/-- Index of the first VERB-tagged token, if any. -/
def firstVerbIdx (ts : List Token) : Option Nat :=
  ts.findIdx? fun t => t.2 = "VERB"

/-- True when position `i` lies before the sentence's first verb (or when
the sentence has no verb at all). -/
def beforeFirstVerb (ts : List Token) (i : Nat) : Bool :=
  match firstVerbIdx ts with
  | some j => decide (i < j)
  | none => true

/-! ### Helper lemmas -/

/-- Converting a valid code point to a character and back is the identity. -/
theorem toNat_charOfNat {m : Nat} (h : m < 55296) : (Char.ofNat m).toNat = m := by
  have hv : m.isValidChar := Or.inl h
  rw [Char.ofNat, dif_pos hv]
  rfl

/-- Lowercasing a character is idempotent. -/
theorem charToLower_toLower (c : Char) : c.toLower.toLower = c.toLower := by
  unfold Char.toLower
  by_cases h : c.toNat ≥ 65 ∧ c.toNat ≤ 90
  · rw [if_pos h]
    have h2 : (Char.ofNat (c.toNat + 32)).toNat = c.toNat + 32 :=
      toNat_charOfNat (by omega)
    rw [if_neg (by omega)]
  · rw [if_neg h, if_neg h]

/-- Lowercasing a string is idempotent. -/
theorem pyLower_pyLower (s : String) : pyLower (pyLower s) = pyLower s := by
  unfold pyLower
  show String.mk ((s.data.map Char.toLower).map Char.toLower) = _
  congr 1
  rw [List.map_map]
  apply List.map_congr_left
  intro c _
  exact charToLower_toLower c

/-- A normalised word never contains a space. -/
theorem space_not_mem_normalizeWord (w : String) : ' ' ∉ (normalizeWord w).data := by
  intro hmem
  have hmem' : ' ' ∈ (pyLower w).data.map (fun c => if c = ' ' then '_' else c) := hmem
  rcases List.mem_map.mp hmem' with ⟨c, _, hc⟩
  by_cases h : c = ' '
  · rw [if_pos h] at hc
    exact absurd hc (by decide)
  · rw [if_neg h] at hc
    exact h hc

/-- A space-free string fixed by lowercasing is fixed by normalisation. -/
theorem normalizeWord_eq_self {k : String} (h1 : ' ' ∉ k.data)
    (h2 : pyLower k = k) : normalizeWord k = k := by
  unfold normalizeWord
  rw [h2]
  cases k with
  | mk l =>
    show String.mk (l.map fun c => if c = ' ' then '_' else c) = String.mk l
    congr 1
    have hfix : ∀ c ∈ l, (if c = ' ' then '_' else c) = id c := by
      intro c hc
      simp only [id]
      rw [if_neg]
      intro hsp
      subst hsp
      exact h1 hc
    rw [List.map_congr_left hfix, List.map_id]

namespace Core

/-- The classification step appends the token to the bucket named by
`assignedBucket` and leaves every other bucket unchanged. -/
theorem categorizeStep_eq_update (cats : Categories) (t : Token) :
    categorizeStep cats t = updateBucket cats (assignedBucket cats t) t := by
  simp only [categorizeStep, assignedBucket]
  repeat' split <;> try rfl

/-- Appending to one bucket leaves the `subjects` field unchanged or appends. -/
theorem updateBucket_subjects (cats : Categories) (b : BucketName) (t : Token) :
    (updateBucket cats b t).subjects = cats.subjects ∨
      (updateBucket cats b t).subjects = cats.subjects ++ [t] := by
  cases b <;> simp [updateBucket]

/-- Appending to one bucket leaves the `objects` field unchanged or appends. -/
theorem updateBucket_objects (cats : Categories) (b : BucketName) (t : Token) :
    (updateBucket cats b t).objects = cats.objects ∨
      (updateBucket cats b t).objects = cats.objects ++ [t] := by
  cases b <;> simp [updateBucket]

/-- Appending to one bucket leaves the `verbs` field unchanged or appends. -/
theorem updateBucket_verbs (cats : Categories) (b : BucketName) (t : Token) :
    (updateBucket cats b t).verbs = cats.verbs ∨
      (updateBucket cats b t).verbs = cats.verbs ++ [t] := by
  cases b <;> simp [updateBucket]

/-- Appending to one bucket leaves the `adjectives` field unchanged or appends. -/
theorem updateBucket_adjectives (cats : Categories) (b : BucketName) (t : Token) :
    (updateBucket cats b t).adjectives = cats.adjectives ∨
      (updateBucket cats b t).adjectives = cats.adjectives ++ [t] := by
  cases b <;> simp [updateBucket]

/-- Appending to one bucket leaves the `adverbs` field unchanged or appends. -/
theorem updateBucket_adverbs (cats : Categories) (b : BucketName) (t : Token) :
    (updateBucket cats b t).adverbs = cats.adverbs ∨
      (updateBucket cats b t).adverbs = cats.adverbs ++ [t] := by
  cases b <;> simp [updateBucket]

/-- Appending to one bucket leaves the `numbers` field unchanged or appends. -/
theorem updateBucket_numbers (cats : Categories) (b : BucketName) (t : Token) :
    (updateBucket cats b t).numbers = cats.numbers ∨
      (updateBucket cats b t).numbers = cats.numbers ++ [t] := by
  cases b <;> simp [updateBucket]

/-- Appending to one bucket leaves the `pronouns` field unchanged or appends. -/
theorem updateBucket_pronouns (cats : Categories) (b : BucketName) (t : Token) :
    (updateBucket cats b t).pronouns = cats.pronouns ∨
      (updateBucket cats b t).pronouns = cats.pronouns ++ [t] := by
  cases b <;> simp [updateBucket]

/-- Appending to one bucket leaves the `prepositions` field unchanged or appends. -/
theorem updateBucket_prepositions (cats : Categories) (b : BucketName) (t : Token) :
    (updateBucket cats b t).prepositions = cats.prepositions ∨
      (updateBucket cats b t).prepositions = cats.prepositions ++ [t] := by
  cases b <;> simp [updateBucket]

/-- Appending to one bucket leaves the `time_expressions` field unchanged or appends. -/
theorem updateBucket_time_expressions (cats : Categories) (b : BucketName) (t : Token) :
    (updateBucket cats b t).time_expressions = cats.time_expressions ∨
      (updateBucket cats b t).time_expressions = cats.time_expressions ++ [t] := by
  cases b <;> simp [updateBucket]

/-- Appending to one bucket leaves the `others` field unchanged or appends. -/
theorem updateBucket_others (cats : Categories) (b : BucketName) (t : Token) :
    (updateBucket cats b t).others = cats.others ∨
      (updateBucket cats b t).others = cats.others ++ [t] := by
  cases b <;> simp [updateBucket]

/-- Appending a token to any bucket grows the total size by one. -/
theorem totalSize_updateBucket (cats : Categories) (b : BucketName) (t : Token) :
    totalSize (updateBucket cats b t) = totalSize cats + 1 := by
  cases b <;> simp [updateBucket, totalSize] <;> omega

/-- Reordering after appending a token to any bucket is, up to permutation,
reordering then appending that token. -/
theorem reorder_updateBucket_perm (cats : Categories) (b : BucketName) (t : Token) :
    List.Perm (reorder_for_sign_language (updateBucket cats b t))
      (reorder_for_sign_language cats ++ [t]) := by
  cases b <;>
    · simp only [updateBucket, reorder_for_sign_language]
      rw [← Multiset.coe_eq_coe]
      simp only [← Multiset.coe_add]
      abel

end Core

/-- A fold of a step function that appends the new element to at most one
of the lists selected by `f` extends `f` of the state by a sublist of the
consumed input. -/
theorem foldl_bucket_sublist {σ : Type} (step : σ → Token → σ) (f : σ → List Token)
    (hstep : ∀ s t, f (step s t) = f s ∨ f (step s t) = f s ++ [t]) :
    ∀ (ts : List Token) (s : σ),
      ∃ l, f (ts.foldl step s) = f s ++ l ∧ l.Sublist ts := by
  intro ts
  induction ts with
  | nil =>
    intro s
    exact ⟨[], by simp, List.Sublist.refl []⟩
  | cons t ts ih =>
    intro s
    rcases ih (step s t) with ⟨l, hl, hsub⟩
    rcases hstep s t with h | h
    · refine ⟨l, ?_, hsub.cons t⟩
      rw [List.foldl_cons, hl, h]
    · refine ⟨t :: l, ?_, hsub.cons₂ t⟩
      rw [List.foldl_cons, hl, h, List.append_assoc]
      rfl

namespace Core

/-- The total bucket size after the classification fold grows by the number
of consumed tokens. -/
theorem totalSize_foldl (ts : List Token) :
    ∀ cats : Categories,
      totalSize (ts.foldl categorizeStep cats) = totalSize cats + ts.length := by
  induction ts with
  | nil =>
    intro cats
    simp
  | cons t ts ih =>
    intro cats
    rw [List.foldl_cons, ih, categorizeStep_eq_update, totalSize_updateBucket]
    simp
    omega

/-- The total bucket size of a classified sentence is its token count. -/
theorem totalSize_categorize (ts : List Token) :
    totalSize (categorize_words ts) = ts.length := by
  have h := totalSize_foldl ts initCategories
  simpa [categorize_words, initCategories, totalSize] using h

/-- The length of the reordered sequence is the total bucket size. -/
theorem length_reorder (c : Categories) :
    (reorder_for_sign_language c).length = totalSize c := by
  simp [reorder_for_sign_language, totalSize]
  omega

/-- Reordering the classification of a sentence permutes the sentence. -/
theorem reorder_categorize_perm (ts : List Token) :
    List.Perm (reorder_for_sign_language (categorize_words ts)) ts := by
  have key : ∀ (us : List Token) (cats : Categories),
      List.Perm (reorder_for_sign_language (us.foldl categorizeStep cats))
        (reorder_for_sign_language cats ++ us) := by
    intro us
    induction us with
    | nil =>
      intro cats
      rw [List.foldl_nil, List.append_nil]
    | cons t us ih =>
      intro cats
      rw [List.foldl_cons]
      have h2 : List.Perm (reorder_for_sign_language (categorizeStep cats t))
          (reorder_for_sign_language cats ++ [t]) := by
        rw [categorizeStep_eq_update]
        exact reorder_updateBucket_perm cats (assignedBucket cats t) t
      have h3 := (ih (categorizeStep cats t)).trans (h2.append_right us)
      simpa [List.append_assoc] using h3
  have h := key ts initCategories
  simpa [categorize_words, initCategories, reorder_for_sign_language] using h

/-- The gloss sequence produced by an initialised core conversion is the
reordered classification with each token replaced by its surface word. -/
theorem glossSeq_convert (d : PyDict) (ts : List Token) :
    glossSeq (convert_to_sign_language true d ts) =
      (reorder_for_sign_language (categorize_words ts)).map Prod.fst := by
  simp [convert_to_sign_language, glossSeq]

end Core

namespace Legacy

/-- The legacy classification step grows the total bucket size by one. -/
theorem legacy_totalSize_categorizeStep (cats : Categories) (t : Token) :
    totalSize (categorizeStep cats t) = totalSize cats + 1 := by
  simp only [categorizeStep]
  repeat' split
  all_goals simp [totalSize]
  all_goals omega

/-- The total bucket size after the legacy classification fold grows by the
number of consumed tokens. -/
theorem legacy_totalSize_foldl (ts : List Token) :
    ∀ cats : Categories,
      totalSize (ts.foldl categorizeStep cats) = totalSize cats + ts.length := by
  induction ts with
  | nil =>
    intro cats
    simp
  | cons t ts ih =>
    intro cats
    rw [List.foldl_cons, ih, legacy_totalSize_categorizeStep]
    simp
    omega

/-- The total bucket size of a legacy classification is the token count. -/
theorem legacy_totalSize_categorize (ts : List Token) :
    totalSize (categorize_words ts) = ts.length := by
  have h := legacy_totalSize_foldl ts initCategories
  simpa [categorize_words, initCategories, totalSize] using h

/-- The length of the legacy reordered sequence is the total bucket size. -/
theorem legacy_length_reorder (c : Categories) :
    (reorder_for_sign_language c).length = totalSize c := by
  simp [reorder_for_sign_language, totalSize]
  omega

/-- The legacy substitution is a pointwise map: on a dictionary hit the
stored gloss, on a miss the uppercased surface word. -/
theorem convert_vocabulary_eq_map (d : PyDict) (seq : List Token) :
    convert_vocabulary d seq =
      seq.map fun t => (dictLookup d (normalizeWord t.1)).getD (pyUpper t.1) := by
  unfold convert_vocabulary
  apply List.map_congr_left
  intro t _
  show (match dictLookup d (normalizeWord t.1) with
        | some v => v
        | none => pyUpper t.1) = _
  cases dictLookup d (normalizeWord t.1) <;> rfl

/-- The gloss sequence produced by an initialised legacy conversion is the
substitution applied to the reordered classification. -/
theorem legacy_glossSeq_convert (d : PyDict) (ts : List Token) :
    glossSeq (convert_to_sign_language true d ts) =
      convert_vocabulary d (reorder_for_sign_language (categorize_words ts)) := by
  simp [convert_to_sign_language, glossSeq]

/-- Each legacy classification step either leaves a bucket unchanged or
appends the consumed token to it. -/
theorem categorizeStep_shape (cats : Categories) (t : Token) :
    ((categorizeStep cats t).subjects = cats.subjects ∨
       (categorizeStep cats t).subjects = cats.subjects ++ [t])
  ∧ ((categorizeStep cats t).objects = cats.objects ∨
       (categorizeStep cats t).objects = cats.objects ++ [t])
  ∧ ((categorizeStep cats t).verbs = cats.verbs ∨
       (categorizeStep cats t).verbs = cats.verbs ++ [t])
  ∧ ((categorizeStep cats t).adjectives = cats.adjectives ∨
       (categorizeStep cats t).adjectives = cats.adjectives ++ [t])
  ∧ ((categorizeStep cats t).adverbs = cats.adverbs ∨
       (categorizeStep cats t).adverbs = cats.adverbs ++ [t])
  ∧ ((categorizeStep cats t).numbers = cats.numbers ∨
       (categorizeStep cats t).numbers = cats.numbers ++ [t])
  ∧ ((categorizeStep cats t).pronouns = cats.pronouns ∨
       (categorizeStep cats t).pronouns = cats.pronouns ++ [t])
  ∧ ((categorizeStep cats t).prepositions = cats.prepositions ∨
       (categorizeStep cats t).prepositions = cats.prepositions ++ [t])
  ∧ ((categorizeStep cats t).others = cats.others ∨
       (categorizeStep cats t).others = cats.others ++ [t]) := by
  simp only [categorizeStep]
  repeat' split
  all_goals simp

/-- Any bucket of the legacy classification is a sublist of the input. -/
theorem legacy_bucket_sublist (f : Categories → List Token)
    (hf : ∀ cats t, f (categorizeStep cats t) = f cats ∨
        f (categorizeStep cats t) = f cats ++ [t])
    (hinit : f initCategories = []) (ts : List Token) :
    (f (categorize_words ts)).Sublist ts := by
  obtain ⟨l, hl, hs⟩ := foldl_bucket_sublist categorizeStep f hf ts initCategories
  have : f (categorize_words ts) = l := by
    rw [categorize_words, hl, hinit, List.nil_append]
  rw [this]
  exact hs

/-- The legacy substitution of a single token, by cases on the lookup. -/
theorem convert_vocabulary_singleton (d : PyDict) (w pos : String) :
    convert_vocabulary d [(w, pos)] =
      [match dictLookup d (normalizeWord w) with
       | some v => v
       | none => pyUpper w] := rfl

end Legacy

namespace Core

/-- Any bucket of the core classification is a sublist of the input. -/
theorem bucket_sublist (f : Categories → List Token)
    (hf : ∀ (cats : Categories) (b : BucketName) (t : Token),
        f (updateBucket cats b t) = f cats ∨ f (updateBucket cats b t) = f cats ++ [t])
    (hinit : f initCategories = []) (ts : List Token) :
    (f (categorize_words ts)).Sublist ts := by
  obtain ⟨l, hl, hs⟩ := foldl_bucket_sublist categorizeStep f
    (fun s t => by
      rw [categorizeStep_eq_update]
      exact hf s (assignedBucket s t) t) ts initCategories
  have : f (categorize_words ts) = l := by
    rw [categorize_words, hl, hinit, List.nil_append]
  rw [this]
  exact hs

/-- The core per-word detail of a single token, by cases on the lookup. -/
theorem create_word_details_singleton (d : PyDict) (w pos : String) :
    create_word_details d [(w, pos)] =
      [match dictLookup d (normalizeWord w) with
       | some m =>
           { index := 1, original_word := w, pos_tag := pos,
             has_dictionary_definition := true, dictionary_action := m,
             in_dictionary := true }
       | none =>
           { index := 1, original_word := w, pos_tag := pos,
             has_dictionary_definition := false,
             dictionary_action := pyUpper w ++ "[" ++ pos ++ "]",
             in_dictionary := false }] := rfl

end Core

/-- A key of `dictInsert d k v` is either `k` or a key of `d`. -/
theorem mem_keys_dictInsert (k v : String) :
    ∀ (d : PyDict) (k' : String),
      k' ∈ (dictInsert d k v).map Prod.fst → k' = k ∨ k' ∈ d.map Prod.fst := by
  intro d
  induction d with
  | nil =>
    intro k' h
    simp [dictInsert] at h
    exact Or.inl h
  | cons p rest ih =>
    obtain ⟨pk, pv⟩ := p
    intro k' h
    by_cases hk : pk = k
    · rw [dictInsert, if_pos hk] at h
      simp only [List.map_cons, List.mem_cons] at h
      rcases h with h | h
      · exact Or.inr (by simp [h])
      · exact Or.inr (by simp [h])
    · rw [dictInsert, if_neg hk] at h
      simp only [List.map_cons, List.mem_cons] at h
      rcases h with h | h
      · exact Or.inr (by simp [h])
      · rcases ih k' h with h2 | h2
        · exact Or.inl h2
        · exact Or.inr (by simp [h2])

/-- Every key put into the store by the core line loader is lowercased. -/
theorem core_load_keys_lowered (lines : List String) :
    ∀ k, k ∈ (Core.load_dictionary_from_file (some lines)).map Prod.fst →
      pyLower k = k := by
  have key : ∀ (ls : List String) (acc : PyDict),
      (∀ k, k ∈ acc.map Prod.fst → pyLower k = k) →
      ∀ k, k ∈ (ls.foldl Core.loadLineStep acc).map Prod.fst → pyLower k = k := by
    intro ls
    induction ls with
    | nil =>
      intro acc hacc
      simpa using hacc
    | cons line ls ih =>
      intro acc hacc
      rw [List.foldl_cons]
      apply ih
      intro k hk
      simp only [Core.loadLineStep] at hk
      split at hk
      · exact hacc k hk
      · split at hk
        · split at hk
          · rcases mem_keys_dictInsert _ _ _ k hk with h | h
            · rw [h]
              exact pyLower_pyLower _
            · exact hacc k h
          · exact hacc k hk
        · exact hacc k hk
  intro k hk
  exact key lines [] (by simp) k hk

/-! ### Claim theorems -/

/-- C1, counterexample: the core converter's gloss sequence does not apply
dictionary substitution.  With the dictionary mapping the normalised key
of the single token "toi" to the stored gloss "TOISIGN", the emitted gloss
sequence element is the raw surface word "toi" — neither the stored gloss
value (as the claim requires on a hit) nor the uppercased fallback. -/
theorem c1_counterexample :
    Core.glossSeq
        (Core.convert_to_sign_language true [("toi", "TOISIGN")] [("toi", "PRON")]) =
      ["toi"]
  ∧ dictLookup [("toi", "TOISIGN")] (normalizeWord "toi") = some "TOISIGN"
  ∧ ("toi" : String) ≠ "TOISIGN"
  ∧ ("toi" : String) ≠ pyUpper "toi" := by
  refine ⟨by decide, by decide, by decide, by decide⟩

/-- C1, amended: in the legacy converter the gloss sequence performs the
claimed substitution — each element is the stored gloss value when the
token's normalised surface word is a key of the dictionary and the
uppercased surface word otherwise (so any word present under its
normalised key yields exactly the stored gloss); the core converter's
gloss sequence instead carries the reordered surface words unchanged. -/
theorem c1_amended (d : PyDict) (ts : List Token) :
    Legacy.glossSeq (Legacy.convert_to_sign_language true d ts) =
        (Legacy.reorder_for_sign_language (Legacy.categorize_words ts)).map
          (fun t => (dictLookup d (normalizeWord t.1)).getD (pyUpper t.1))
  ∧ Core.glossSeq (Core.convert_to_sign_language true d ts) =
      (Core.reorder_for_sign_language (Core.categorize_words ts)).map Prod.fst := by
  constructor
  · rw [Legacy.legacy_glossSeq_convert, Legacy.convert_vocabulary_eq_map]
  · exact Core.glossSeq_convert d ts

/-- C2: the core gloss sequence is the concatenation of the buckets in the
fixed order time, pronoun, subject, adjective, number, object, verb,
adverb, preposition, other, and each bucket is a sublist of the input, so
within a bucket tokens keep their input relative order; the legacy reorder
follows the same order with no time bucket. -/
theorem c2_fixed_bucket_order (d : PyDict) (ts : List Token) :
    Core.reorder_for_sign_language (Core.categorize_words ts) =
        (Core.categorize_words ts).time_expressions ++
        (Core.categorize_words ts).pronouns ++
        (Core.categorize_words ts).subjects ++
        (Core.categorize_words ts).adjectives ++
        (Core.categorize_words ts).numbers ++
        (Core.categorize_words ts).objects ++
        (Core.categorize_words ts).verbs ++
        (Core.categorize_words ts).adverbs ++
        (Core.categorize_words ts).prepositions ++
        (Core.categorize_words ts).others
  ∧ Core.glossSeq (Core.convert_to_sign_language true d ts) =
      (Core.reorder_for_sign_language (Core.categorize_words ts)).map Prod.fst
  ∧ (Core.categorize_words ts).time_expressions.Sublist ts
  ∧ (Core.categorize_words ts).pronouns.Sublist ts
  ∧ (Core.categorize_words ts).subjects.Sublist ts
  ∧ (Core.categorize_words ts).adjectives.Sublist ts
  ∧ (Core.categorize_words ts).numbers.Sublist ts
  ∧ (Core.categorize_words ts).objects.Sublist ts
  ∧ (Core.categorize_words ts).verbs.Sublist ts
  ∧ (Core.categorize_words ts).adverbs.Sublist ts
  ∧ (Core.categorize_words ts).prepositions.Sublist ts
  ∧ (Core.categorize_words ts).others.Sublist ts
  ∧ Legacy.reorder_for_sign_language (Legacy.categorize_words ts) =
        (Legacy.categorize_words ts).pronouns ++
        (Legacy.categorize_words ts).subjects ++
        (Legacy.categorize_words ts).adjectives ++
        (Legacy.categorize_words ts).numbers ++
        (Legacy.categorize_words ts).objects ++
        (Legacy.categorize_words ts).verbs ++
        (Legacy.categorize_words ts).adverbs ++
        (Legacy.categorize_words ts).prepositions ++
        (Legacy.categorize_words ts).others
  ∧ (Legacy.categorize_words ts).pronouns.Sublist ts
  ∧ (Legacy.categorize_words ts).subjects.Sublist ts
  ∧ (Legacy.categorize_words ts).objects.Sublist ts := by
  refine ⟨rfl, Core.glossSeq_convert d ts,
    Core.bucket_sublist (fun c => c.time_expressions)
      (fun cats b t => Core.updateBucket_time_expressions cats b t) rfl ts,
    Core.bucket_sublist (fun c => c.pronouns)
      (fun cats b t => Core.updateBucket_pronouns cats b t) rfl ts,
    Core.bucket_sublist (fun c => c.subjects)
      (fun cats b t => Core.updateBucket_subjects cats b t) rfl ts,
    Core.bucket_sublist (fun c => c.adjectives)
      (fun cats b t => Core.updateBucket_adjectives cats b t) rfl ts,
    Core.bucket_sublist (fun c => c.numbers)
      (fun cats b t => Core.updateBucket_numbers cats b t) rfl ts,
    Core.bucket_sublist (fun c => c.objects)
      (fun cats b t => Core.updateBucket_objects cats b t) rfl ts,
    Core.bucket_sublist (fun c => c.verbs)
      (fun cats b t => Core.updateBucket_verbs cats b t) rfl ts,
    Core.bucket_sublist (fun c => c.adverbs)
      (fun cats b t => Core.updateBucket_adverbs cats b t) rfl ts,
    Core.bucket_sublist (fun c => c.prepositions)
      (fun cats b t => Core.updateBucket_prepositions cats b t) rfl ts,
    Core.bucket_sublist (fun c => c.others)
      (fun cats b t => Core.updateBucket_others cats b t) rfl ts,
    rfl,
    Legacy.legacy_bucket_sublist (fun c => c.pronouns)
      (fun cats t => (Legacy.categorizeStep_shape cats t).2.2.2.2.2.2.1) rfl ts,
    Legacy.legacy_bucket_sublist (fun c => c.subjects)
      (fun cats t => (Legacy.categorizeStep_shape cats t).1) rfl ts,
    Legacy.legacy_bucket_sublist (fun c => c.objects)
      (fun cats t => (Legacy.categorizeStep_shape cats t).2.1) rfl ts⟩

/-- C3: classification is total — the bucket sizes of both converters sum
to the input length, the core reordered sequence is a permutation of the
input (every token occupies exactly one output position), and both gloss
sequences have exactly one element per input token. -/
theorem c3_totality (d : PyDict) (ts : List Token) :
    (Core.categorize_words ts).subjects.length +
        (Core.categorize_words ts).objects.length +
        (Core.categorize_words ts).verbs.length +
        (Core.categorize_words ts).adjectives.length +
        (Core.categorize_words ts).adverbs.length +
        (Core.categorize_words ts).numbers.length +
        (Core.categorize_words ts).pronouns.length +
        (Core.categorize_words ts).prepositions.length +
        (Core.categorize_words ts).time_expressions.length +
        (Core.categorize_words ts).others.length = ts.length
  ∧ List.Perm (Core.reorder_for_sign_language (Core.categorize_words ts)) ts
  ∧ (Core.glossSeq (Core.convert_to_sign_language true d ts)).length = ts.length
  ∧ (Legacy.categorize_words ts).subjects.length +
        (Legacy.categorize_words ts).objects.length +
        (Legacy.categorize_words ts).verbs.length +
        (Legacy.categorize_words ts).adjectives.length +
        (Legacy.categorize_words ts).adverbs.length +
        (Legacy.categorize_words ts).numbers.length +
        (Legacy.categorize_words ts).pronouns.length +
        (Legacy.categorize_words ts).prepositions.length +
        (Legacy.categorize_words ts).others.length = ts.length
  ∧ (Legacy.glossSeq (Legacy.convert_to_sign_language true d ts)).length = ts.length := by
  refine ⟨Core.totalSize_categorize ts, Core.reorder_categorize_perm ts, ?_,
    Legacy.legacy_totalSize_categorize ts, ?_⟩
  · rw [Core.glossSeq_convert, List.length_map, Core.length_reorder,
      Core.totalSize_categorize]
  · rw [Legacy.legacy_glossSeq_convert, Legacy.convert_vocabulary_eq_map, List.length_map,
      Legacy.legacy_length_reorder, Legacy.legacy_totalSize_categorize]

/-- C4: during the left-to-right pass a NOUN/PROPN token goes to the
subject bucket exactly when both the subject and the verb bucket are empty
at that moment, and to the object bucket otherwise; for two PROPN tokens
with no verb the first becomes subject and the second object. -/
theorem c4_noun_subject_object (p : List Token) (w pos : String)
    (hpos : pos = "NOUN" ∨ pos = "PROPN") :
    ((Core.categorize_words p).subjects = [] ∧ (Core.categorize_words p).verbs = [] →
        (Core.categorize_words (p ++ [(w, pos)])).subjects =
            (Core.categorize_words p).subjects ++ [(w, pos)]
      ∧ (Core.categorize_words (p ++ [(w, pos)])).objects =
          (Core.categorize_words p).objects)
  ∧ ((Core.categorize_words p).subjects ≠ [] ∨ (Core.categorize_words p).verbs ≠ [] →
        (Core.categorize_words (p ++ [(w, pos)])).objects =
            (Core.categorize_words p).objects ++ [(w, pos)]
      ∧ (Core.categorize_words (p ++ [(w, pos)])).subjects =
          (Core.categorize_words p).subjects)
  ∧ (Core.categorize_words [("Hà Nội", "PROPN"), ("Việt Nam", "PROPN")]).subjects =
      [("Hà Nội", "PROPN")]
  ∧ (Core.categorize_words [("Hà Nội", "PROPN"), ("Việt Nam", "PROPN")]).objects =
      [("Việt Nam", "PROPN")]
  ∧ (Core.categorize_words [("Hà Nội", "PROPN"), ("Việt Nam", "PROPN")]).verbs = [] := by
  have happ : Core.categorize_words (p ++ [(w, pos)]) =
      Core.categorizeStep (Core.categorize_words p) (w, pos) := by
    simp [Core.categorize_words, List.foldl_append]
  refine ⟨?_, ?_, by decide, by decide, by decide⟩
  · rintro ⟨h1, h2⟩
    have hb : Core.assignedBucket (Core.categorize_words p) (w, pos) = .subject := by
      rcases hpos with h | h <;> subst h <;>
        simp [Core.assignedBucket, h1, h2]
    rw [happ, Core.categorizeStep_eq_update, hb]
    exact ⟨rfl, rfl⟩
  · intro hne
    have hcond : ¬ ((Core.categorize_words p).subjects.length = 0 ∧
        (Core.categorize_words p).verbs.length = 0) := by
      rcases hne with h | h <;> simp [List.length_eq_zero] <;> intro h2
      · exact absurd h2 h
      · exact h
    have hb : Core.assignedBucket (Core.categorize_words p) (w, pos) = .object := by
      rcases hpos with h | h <;> subst h <;>
        · simp only [Core.assignedBucket]
          rw [if_neg hcond]
          simp
    rw [happ, Core.categorizeStep_eq_update, hb]
    exact ⟨rfl, rfl⟩

/-- C4, witness: on the single-token input `("a", NOUN)` with empty prefix
both buckets are empty, so the token is assigned to the subject bucket and
the object bucket stays empty. -/
theorem c4_noun_subject_object_witness :
    (Core.categorize_words [("a", "NOUN")]).subjects = [("a", "NOUN")]
  ∧ (Core.categorize_words [("a", "NOUN")]).objects = [] := by
  have h := (c4_noun_subject_object [] "a" "NOUN" (Or.inl rfl)).1 ⟨rfl, rfl⟩
  exact ⟨h.1, h.2⟩

/-- C5, counterexample: bucket membership is not a function of
(tag, position relative to the first verb).  In
`[("a",NOUN), ("b",NOUN), ("c",VERB)]` both NOUN tokens carry the same tag
and both precede the first verb, yet the first is assigned to the subject
bucket and the second to the object bucket. -/
theorem c5_counterexample :
    Core.bucketAt [("a", "NOUN"), ("b", "NOUN"), ("c", "VERB")] 0 =
      some BucketName.subject
  ∧ Core.bucketAt [("a", "NOUN"), ("b", "NOUN"), ("c", "VERB")] 1 =
      some BucketName.object
  ∧ (("a", "NOUN") : Token).2 = (("b", "NOUN") : Token).2
  ∧ beforeFirstVerb [("a", "NOUN"), ("b", "NOUN"), ("c", "VERB")] 0 = true
  ∧ beforeFirstVerb [("a", "NOUN"), ("b", "NOUN"), ("c", "VERB")] 1 = true
  ∧ ("a", "NOUN") ∈
      (Core.categorize_words [("a", "NOUN"), ("b", "NOUN"), ("c", "VERB")]).subjects
  ∧ ("b", "NOUN") ∈
      (Core.categorize_words [("a", "NOUN"), ("b", "NOUN"), ("c", "VERB")]).objects
  ∧ BucketName.subject ≠ BucketName.object := by
  decide

/-- C5, amended: bucket membership is a total deterministic function of the
token (surface word and tag) together with the two flags "subject bucket
empty so far" and "verb bucket empty so far" — not of position relative to
the first verb alone; the classification step appends each token to
exactly the bucket this function names. -/
theorem c5_amended (cats cats' : Core.Categories) (t : Token)
    (hs : cats.subjects = [] ↔ cats'.subjects = [])
    (hv : cats.verbs = [] ↔ cats'.verbs = []) :
    Core.assignedBucket cats t = Core.assignedBucket cats' t
  ∧ Core.categorizeStep cats t = Core.updateBucket cats (Core.assignedBucket cats t) t := by
  refine ⟨?_, Core.categorizeStep_eq_update cats t⟩
  have hiff : (cats.subjects.length = 0 ∧ cats.verbs.length = 0) ↔
      (cats'.subjects.length = 0 ∧ cats'.verbs.length = 0) := by
    simp [List.length_eq_zero, hs, hv]
  simp only [Core.assignedBucket]
  by_cases h : cats.subjects.length = 0 ∧ cats.verbs.length = 0
  · rw [if_pos h, if_pos (hiff.mp h)]
  · rw [if_neg h, if_neg fun h2 => h (hiff.mpr h2)]

/-- C5, amended witness: two states with equal emptiness flags but
different pronoun buckets assign a NOUN token to the same bucket, and the
step function is the update at the assigned bucket. -/
theorem c5_amended_witness :
    Core.assignedBucket Core.initCategories ("a", "NOUN") =
        Core.assignedBucket
          { Core.initCategories with pronouns := [("x", "PRON")] } ("a", "NOUN")
  ∧ Core.categorizeStep Core.initCategories ("a", "NOUN") =
      Core.updateBucket Core.initCategories
        (Core.assignedBucket Core.initCategories ("a", "NOUN")) ("a", "NOUN") :=
  c5_amended Core.initCategories
    { Core.initCategories with pronouns := [("x", "PRON")] } ("a", "NOUN")
    (by decide) (by decide)

/-- C6, counterexample: a readable dictionary source that yields zero
entries (a single comment line) produces the empty mapping, not the
built-in seed mapping, and the legacy loader returns the empty mapping
even when the source is unavailable — so a load can leave the store
empty. -/
theorem c6_counterexample :
    Core.load_dictionary_from_file (some ["# comment only"]) = []
  ∧ Legacy.load_dictionary_from_file none = []
  ∧ Core.fallback_dictionary ≠ [] := by
  decide

/-- C6, amended: the core loader returns the built-in (19-entry, nonempty)
seed mapping exactly when the source is unavailable (missing file or read
error); a readable source yielding zero entries gives the empty mapping,
and the legacy loader never falls back to a seed mapping. -/
theorem c6_amended :
    Core.load_dictionary_from_file none = Core.fallback_dictionary
  ∧ Core.fallback_dictionary.length = 19
  ∧ Legacy.load_dictionary_from_file none = [] :=
  ⟨rfl, rfl, rfl⟩

/-- C7, counterexample: load-time normalisation does not replace spaces.
The line "chung toi = SIGN" loads under the key "chung toi" (space kept),
while substitution looks up the normalised form "chung_toi", so the loaded
multi-word entry is unreachable; the legacy loader does not even lowercase
("Toi" stays uppercase and is likewise missed). -/
theorem c7_counterexample :
    Core.load_dictionary_from_file (some ["chung toi = SIGN"]) = [("chung toi", "SIGN")]
  ∧ normalizeWord "chung toi" = "chung_toi"
  ∧ ("chung_toi" : String) ≠ "chung toi"
  ∧ dictLookup [("chung toi", "SIGN")] (normalizeWord "chung toi") = none
  ∧ Legacy.load_dictionary_from_file (some ["Toi = SIGN"]) = [("Toi", "SIGN")]
  ∧ dictLookup [("Toi", "SIGN")] (normalizeWord "Toi") = none := by
  decide

/-- C7, amended: the core loader lowercases keys but never replaces
spaces; a loaded key without internal spaces is therefore already in the
exact normalised form substitution computes (and is reachable), while any
key containing a space differs from every normalised lookup string and is
unreachable. -/
theorem c7_amended :
    (∀ (lines : List String) (k : String),
        k ∈ (Core.load_dictionary_from_file (some lines)).map Prod.fst →
          pyLower k = k)
  ∧ (∀ k : String, ' ' ∉ k.data → pyLower k = k → normalizeWord k = k)
  ∧ (∀ w k : String, ' ' ∈ k.data → normalizeWord w ≠ k) := by
  refine ⟨fun lines k h => core_load_keys_lowered lines k h,
    fun k h1 h2 => normalizeWord_eq_self h1 h2, ?_⟩
  intro w k hk heq
  rw [← heq] at hk
  exact space_not_mem_normalizeWord w hk

/-- C7, amended witness: the key "abc" loaded from "abc = D" is
lowercase-invariant, a space-free lowercase key equals its own normalised
form, and no normalised lookup string equals the spaced key "a b". -/
theorem c7_amended_witness :
    pyLower "abc" = "abc"
  ∧ normalizeWord "abc" = "abc"
  ∧ normalizeWord "x" ≠ "a b" :=
  ⟨c7_amended.1 ["abc = D"] "abc" (by decide),
   c7_amended.2.1 "abc" (by decide) (by decide),
   c7_amended.2.2 "x" "a b" (by decide)⟩

/-- C8: the two fallback formats live in distinct output fields.  On a
dictionary miss the legacy gloss sequence carries the plain uppercased
surface word while the core per-word detail carries `WORD[TAG]` with a
false dictionary-hit flag; on a hit the gloss carries the stored value and
the detail carries the stored value with a true flag. -/
theorem c8_fallback_formats (d : PyDict) (w pos : String) :
    (dictLookup d (normalizeWord w) = none →
        Legacy.convert_vocabulary d [(w, pos)] = [pyUpper w]
      ∧ Core.create_word_details d [(w, pos)] =
          [{ index := 1, original_word := w, pos_tag := pos,
             has_dictionary_definition := false,
             dictionary_action := pyUpper w ++ "[" ++ pos ++ "]",
             in_dictionary := false }])
  ∧ (∀ v, dictLookup d (normalizeWord w) = some v →
        Legacy.convert_vocabulary d [(w, pos)] = [v]
      ∧ Core.create_word_details d [(w, pos)] =
          [{ index := 1, original_word := w, pos_tag := pos,
             has_dictionary_definition := true,
             dictionary_action := v, in_dictionary := true }]) := by
  constructor
  · intro h
    rw [Legacy.convert_vocabulary_singleton, Core.create_word_details_singleton, h]
    exact ⟨rfl, rfl⟩
  · intro v h
    rw [Legacy.convert_vocabulary_singleton, Core.create_word_details_singleton, h]
    exact ⟨rfl, rfl⟩

/-- C8, witness: with the store `{hit ↦ HITSIGN}`, the token "hit" yields
the stored gloss and a true-flag detail, and the token "miss" yields the
plain uppercase gloss and the bracketed-tag detail with a false flag. -/
theorem c8_fallback_formats_witness :
    Legacy.convert_vocabulary [("hit", "HITSIGN")] [("hit", "NOUN")] = ["HITSIGN"]
  ∧ Core.create_word_details [("hit", "HITSIGN")] [("hit", "NOUN")] =
      [{ index := 1, original_word := "hit", pos_tag := "NOUN",
         has_dictionary_definition := true,
         dictionary_action := "HITSIGN", in_dictionary := true }]
  ∧ Legacy.convert_vocabulary [("hit", "HITSIGN")] [("miss", "NOUN")] = [pyUpper "miss"]
  ∧ Core.create_word_details [("hit", "HITSIGN")] [("miss", "NOUN")] =
      [{ index := 1, original_word := "miss", pos_tag := "NOUN",
         has_dictionary_definition := false,
         dictionary_action := pyUpper "miss" ++ "[" ++ "NOUN" ++ "]",
         in_dictionary := false }] := by
  have hhit :=
    (c8_fallback_formats [("hit", "HITSIGN")] "hit" "NOUN").2 "HITSIGN" (by decide)
  have hmiss := (c8_fallback_formats [("hit", "HITSIGN")] "miss" "NOUN").1 (by decide)
  exact ⟨hhit.1, hhit.2, hmiss.1, hmiss.2⟩

/-- C9: an initialised core conversion always returns a result, an
uninitialised one returns exactly the structured error, and the empty
input yields an empty gloss sequence with every bucket empty and all
reported bucket counts zero. -/
theorem c9_error_only_uninitialized (d : PyDict) (ts : List Token) :
    (∃ r, Core.convert_to_sign_language true d ts = Core.ConvertOutput.ok r)
  ∧ Core.convert_to_sign_language false d ts =
      Core.ConvertOutput.error "Sign Language Converter is not initialized"
  ∧ Core.glossSeq (Core.convert_to_sign_language true d []) = []
  ∧ Core.categorize_words [] = Core.initCategories
  ∧ (Core.analysisOf (Core.convert_to_sign_language true d [])).map
      (fun a => a.structure_changes) = some ⟨0, 0, 0, 0, 0, 0⟩ := by
  exact ⟨⟨_, rfl⟩, rfl, rfl, rfl, rfl⟩

end VSL
